import Mathlib

/-!
Verification of the page-layout stage of scantailor-advanced
(src/filters/page_layout/Filter.cpp): the per-page parameter store, its
persistence codec, default-parameter seeding, and the page-ordering option
list.  Collaborator classes whose sources are outside the given tree
(Settings, Params, Guide, UnitsConverter, DefaultParams) are modelled from
the specification; their definitions carry a doc comment saying so.
-/

namespace page_layout

/-- Page keys are opaque unique identifiers; we model them as naturals. -/
abbrev PageId := Nat

/-- Four hard margins (left, top, right, bottom) in some linear unit. -/
structure Margins where
  left : ℚ
  top : ℚ
  right : ℚ
  bottom : ℚ
  deriving DecidableEq

/-- A rectangle in page-local coordinates. -/
structure RectF where
  x : ℚ
  y : ℚ
  w : ℚ
  h : ℚ
  deriving DecidableEq

/-- A width/height pair. -/
structure SizeF where
  w : ℚ
  h : ℚ
  deriving DecidableEq

/-- Modelled from the spec: the alignment policy is an enumerated
horizontal/vertical anchor combination (Alignment.h is outside src/);
we model the two enumerations as integers. -/
structure Alignment where
  hor : Int
  vert : Int
  deriving DecidableEq

/-- Modelled from the spec: the per-page ParamsRecord (Params.h is outside
src/) — hard margins in millimetres, page rectangle, content rectangle and
content size (each possibly undefined), alignment, auto-margins flag. -/
structure Params where
  hardMarginsMM : Margins
  pageRect : Option RectF
  contentRect : Option RectF
  contentSizeMM : Option SizeF
  alignment : Alignment
  autoMargins : Bool
  deriving DecidableEq

/-- Modelled from the spec: a guide line is an orientation plus a position
(Guide.h is outside src/). -/
structure Guide where
  orientation : Int
  position : ℚ
  deriving DecidableEq

/-- Attribute values of the attributed tree.  Qt stores every attribute as
a string; we model the three string shapes the codec distinguishes
(plain strings, decimal integers, decimal fractions) as a typed union. -/
inductive Val where
  | str (s : String)
  | int (n : Int)
  | rat (q : ℚ)
  deriving DecidableEq

/-- Decimal-digit accumulator used to model QString::toInt. -/
def digitsToNatAux : List Char → Nat → Option Nat
  | [], acc => some acc
  | c :: rest, acc =>
      if c.isDigit then digitsToNatAux rest (acc * 10 + (c.toNat - 48)) else none

/-- QString::toInt on a plain string: optional sign followed by at least
one decimal digit; returns the value and an ok flag, (0, false) on
failure. -/
def strToIntQ (s : String) : Int × Bool :=
  match s.data with
  | [] => (0, false)
  | c :: rest =>
      if c = '-' then
        match rest with
        | [] => (0, false)
        | _ :: _ =>
            match digitsToNatAux rest 0 with
            | some n => (-(n : Int), true)
            | none => (0, false)
      else if c = '+' then
        match rest with
        | [] => (0, false)
        | _ :: _ =>
            match digitsToNatAux rest 0 with
            | some n => ((n : Int), true)
            | none => (0, false)
      else
        match digitsToNatAux (c :: rest) 0 with
        | some n => ((n : Int), true)
        | none => (0, false)

/-- The string Qt renders for an attribute value. -/
def Val.asString : Val → String
  | Val.str s => s
  | Val.int n => toString n
  | Val.rat q => toString q

/-- QString::toInt applied to an attribute value (absent attribute reads
as the empty string, which fails to parse). -/
def valToInt : Option Val → Int × Bool
  | none => (0, false)
  | some (Val.str s) => strToIntQ s
  | some (Val.int n) => (n, true)
  | some (Val.rat q) => if q.den = 1 then (q.num, true) else (0, false)

/-- A node of the attributed document tree: an element with a tag name,
named attributes and an ordered child list, or a non-element node
(text, comment, ...) carrying only its node name. -/
inductive DomNode where
  | element (tag : String) (attrs : List (String × Val)) (children : List DomNode)
  | other (name : String)

/-- QDomNode::nodeName. -/
def DomNode.nodeName : DomNode → String
  | DomNode.element tag _ _ => tag
  | DomNode.other n => n

/-- Children of a node (non-elements have none). -/
def domChildren : DomNode → List DomNode
  | DomNode.element _ _ children => children
  | DomNode.other _ => []

/-- First attribute with the given name. -/
def attrLookup : List (String × Val) → String → Option Val
  | [], _ => none
  | (a, v) :: rest, name => if a = name then some v else attrLookup rest name

/-- QDomNode::namedItem: the first direct child whose node name matches. -/
def namedItem : List DomNode → String → Option DomNode
  | [], _ => none
  | c :: rest, name => if c.nodeName = name then some c else namedItem rest name

/-- QDomNode::toElement: keep the node only when it is an element;
a null node stays null. -/
def toElement : Option DomNode → Option DomNode
  | some (DomNode.element tag attrs children) => some (DomNode.element tag attrs children)
  | _ => none

/-- namedItem called on a possibly-null element (a null element has no
children, so the lookup yields the null node). -/
def namedItemIn (el : Option DomNode) (name : String) : Option DomNode :=
  match el with
  | some e => namedItem (domChildren e) name
  | none => none

/-- Children of a possibly-null element. -/
def domChildrenIn : Option DomNode → List DomNode
  | some e => domChildren e
  | none => []

/-- Attribute of a possibly-null element. -/
def elemAttr : Option DomNode → String → Option Val
  | some (DomNode.element _ attrs _), name => attrLookup attrs name
  | _, _ => none

/-- QDomElement::attribute with the default empty string: the string
value of the attribute, or the empty string when the element is null or
the attribute absent. -/
def attrString (el : Option DomNode) (name : String) : String :=
  match elemAttr el name with
  | some v => v.asString
  | none => ""

def pageLayoutTagName : String := "page-layout"
def showMiddleRectAttrName : String := "showMiddleRect"
def guidesTagName : String := "guides"
def guideTagName : String := "guide"
def pageTagName : String := "page"
def idAttrName : String := "id"
def paramsTagName : String := "params"
def oneStr : String := "1"
def zeroStr : String := "0"

def marginLeftKey : String := "marginLeft"
def marginTopKey : String := "marginTop"
def marginRightKey : String := "marginRight"
def marginBottomKey : String := "marginBottom"
def pageRectDefKey : String := "pageRectDefined"
def pageRectXKey : String := "pageRectX"
def pageRectYKey : String := "pageRectY"
def pageRectWKey : String := "pageRectW"
def pageRectHKey : String := "pageRectH"
def contentRectDefKey : String := "contentRectDefined"
def contentRectXKey : String := "contentRectX"
def contentRectYKey : String := "contentRectY"
def contentRectWKey : String := "contentRectW"
def contentRectHKey : String := "contentRectH"
def contentSizeDefKey : String := "contentSizeDefined"
def contentSizeWKey : String := "contentSizeW"
def contentSizeHKey : String := "contentSizeH"
def alignmentHorKey : String := "alignmentHor"
def alignmentVertKey : String := "alignmentVert"
def autoMarginsKey : String := "autoMargins"
def orientationKey : String := "orientation"
def positionKey : String := "position"

/-- Integer attribute with a default. -/
def getIntAttr (attrs : List (String × Val)) (name : String) (d : Int) : Int :=
  match attrLookup attrs name with
  | some (Val.int n) => n
  | _ => d

/-- Rational attribute with a default. -/
def getRatAttr (attrs : List (String × Val)) (name : String) (d : ℚ) : ℚ :=
  match attrLookup attrs name with
  | some (Val.rat q) => q
  | _ => d

/-- Attribute list encoding a possibly-undefined rectangle. -/
def rectAttrs (defKey xKey yKey wKey hKey : String) : Option RectF → List (String × Val)
  | none => [(defKey, Val.int 0)]
  | some r =>
      [(defKey, Val.int 1), (xKey, Val.rat r.x), (yKey, Val.rat r.y),
       (wKey, Val.rat r.w), (hKey, Val.rat r.h)]

/-- Decode a possibly-undefined rectangle from an attribute list. -/
def readRectAttrs (attrs : List (String × Val)) (defKey xKey yKey wKey hKey : String) : Option RectF :=
  if getIntAttr attrs defKey 0 = 1 then
    some ⟨getRatAttr attrs xKey 0, getRatAttr attrs yKey 0,
          getRatAttr attrs wKey 0, getRatAttr attrs hKey 0⟩
  else none

/-- Attribute list encoding a possibly-undefined size. -/
def sizeAttrs (defKey wKey hKey : String) : Option SizeF → List (String × Val)
  | none => [(defKey, Val.int 0)]
  | some s => [(defKey, Val.int 1), (wKey, Val.rat s.w), (hKey, Val.rat s.h)]

/-- Decode a possibly-undefined size from an attribute list. -/
def readSizeAttrs (attrs : List (String × Val)) (defKey wKey hKey : String) : Option SizeF :=
  if getIntAttr attrs defKey 0 = 1 then
    some ⟨getRatAttr attrs wKey 0, getRatAttr attrs hKey 0⟩
  else none

/-- Modelled from the spec: Params::toXml (Params.cpp is outside src/) —
the record serializes itself into a single self-describing element whose
exact sub-schema is delegated to the record; we encode every field as an
attribute of that element. -/
def Params.toXml (name : String) (p : Params) : DomNode :=
  DomNode.element name
    ([(marginLeftKey, Val.rat p.hardMarginsMM.left),
      (marginTopKey, Val.rat p.hardMarginsMM.top),
      (marginRightKey, Val.rat p.hardMarginsMM.right),
      (marginBottomKey, Val.rat p.hardMarginsMM.bottom)]
     ++ rectAttrs pageRectDefKey pageRectXKey pageRectYKey pageRectWKey pageRectHKey p.pageRect
     ++ rectAttrs contentRectDefKey contentRectXKey contentRectYKey contentRectWKey contentRectHKey p.contentRect
     ++ sizeAttrs contentSizeDefKey contentSizeWKey contentSizeHKey p.contentSizeMM
     ++ [(alignmentHorKey, Val.int p.alignment.hor),
         (alignmentVertKey, Val.int p.alignment.vert),
         (autoMarginsKey, Val.int (if p.autoMargins then 1 else 0))])
    []

/-- Modelled from the spec: the Params(QDomElement) constructor — reads
each field from the element's attributes, falling back to defaults for
missing or ill-typed entries; it always yields a record. -/
def Params.fromXml : DomNode → Params
  | DomNode.element _ attrs _ =>
      { hardMarginsMM :=
          ⟨getRatAttr attrs marginLeftKey 0, getRatAttr attrs marginTopKey 0,
           getRatAttr attrs marginRightKey 0, getRatAttr attrs marginBottomKey 0⟩
        pageRect := readRectAttrs attrs pageRectDefKey pageRectXKey pageRectYKey pageRectWKey pageRectHKey
        contentRect := readRectAttrs attrs contentRectDefKey contentRectXKey contentRectYKey contentRectWKey contentRectHKey
        contentSizeMM := readSizeAttrs attrs contentSizeDefKey contentSizeWKey contentSizeHKey
        alignment := ⟨getIntAttr attrs alignmentHorKey 0, getIntAttr attrs alignmentVertKey 0⟩
        autoMargins := decide (getIntAttr attrs autoMarginsKey 0 ≠ 0) }
  | DomNode.other _ =>
      { hardMarginsMM := ⟨0, 0, 0, 0⟩, pageRect := none, contentRect := none,
        contentSizeMM := none, alignment := ⟨0, 0⟩, autoMargins := false }

/-- Modelled from the spec: Guide::toXml (Guide.cpp is outside src/) —
a guide serializes via its own self-describing element with orientation
and position attributes. -/
def Guide.toXml (name : String) (g : Guide) : DomNode :=
  DomNode.element name
    [(orientationKey, Val.int g.orientation), (positionKey, Val.rat g.position)] []

/-- Modelled from the spec: the Guide(QDomElement) constructor. -/
def Guide.fromXml : DomNode → Guide
  | DomNode.element _ attrs _ =>
      ⟨getIntAttr attrs orientationKey 0, getRatAttr attrs positionKey 0⟩
  | DomNode.other _ => ⟨0, 0⟩

/-- First record stored under the given key (the store keeps at most one
record per key). -/
def findRecord : List (PageId × Params) → PageId → Option Params
  | [], _ => none
  | (k, p) :: rest, key => if key = k then some p else findRecord rest key

/-- Insert or overwrite the record stored under a key. -/
def insertRecord : List (PageId × Params) → PageId → Params → List (PageId × Params)
  | [], key, p => [(key, p)]
  | (k, q) :: rest, key, p =>
      if key = k then (key, p) :: rest else (k, q) :: insertRecord rest key p

/-- Modelled from the spec: the ParameterStore (Settings.cpp is outside
src/) — a mapping from page key to ParamsRecord, a project-wide guide
list and the middle-rect display toggle. -/
structure Settings where
  records : List (PageId × Params)
  guides : List Guide
  showMiddleRect : Bool
  deriving DecidableEq

/-- The store a freshly constructed stage owns: no records, no guides,
toggle off. -/
def Settings.empty : Settings := ⟨[], [], false⟩

/-- Modelled from the spec: Settings::clear — empties the mapping and the
guide list and resets the toggle to its default. -/
def Settings.clear (_ : Settings) : Settings := Settings.empty

/-- Modelled from the spec: Settings::getPageParams — a copy of the
record when present, absent otherwise. -/
def Settings.getPageParams (s : Settings) (k : PageId) : Option Params :=
  findRecord s.records k

/-- Modelled from the spec: Settings::setPageParams — inserts or
overwrites unconditionally. -/
def Settings.setPageParams (s : Settings) (k : PageId) (p : Params) : Settings :=
  { s with records := insertRecord s.records k p }

/-- Modelled from the spec: Settings::isParamsNull — true iff no record
exists for the key. -/
def Settings.isParamsNull (s : Settings) (k : PageId) : Bool :=
  (Settings.getPageParams s k).isNone

/-- Modelled from the spec: Settings::enableShowingMiddleRect. -/
def Settings.enableShowingMiddleRect (s : Settings) (b : Bool) : Settings :=
  { s with showMiddleRect := b }

/-- Modelled from the spec: Settings::isShowingMiddleRectEnabled. -/
def Settings.isShowingMiddleRectEnabled (s : Settings) : Bool :=
  s.showMiddleRect

/-- Modelled from the spec: Settings::removePagesMissingFrom — deletes
every record whose key is absent from the authoritative sequence. -/
def Settings.removePagesMissingFrom (s : Settings) (seq : List PageId) : Settings :=
  { s with records := s.records.filter (fun e => seq.contains e.1) }

/-- Modelled from the spec: Settings::performRelinking — records whose
key remaps to null are dropped, the rest are reinserted under the new
key; guides and the toggle are untouched. -/
def Settings.performRelinking (s : Settings) (remap : PageId → Option PageId) : Settings :=
  { s with records := s.records.filterMap (fun e => (remap e.1).map (fun k2 => (k2, e.2))) }

/-- Modelled from the spec: Settings::setContentSizeMM — updates only the
content-size field of an existing or newly-created-on-demand record. -/
def Settings.setContentSizeMM (s : Settings) (k : PageId) (sz : SizeF) : Settings :=
  match Settings.getPageParams s k with
  | some p => Settings.setPageParams s k { p with contentSizeMM := some sz }
  | none =>
      Settings.setPageParams s k
        { hardMarginsMM := ⟨0, 0, 0, 0⟩, pageRect := none, contentRect := none,
          contentSizeMM := some sz, alignment := ⟨0, 0⟩, autoMargins := false }

/-- Modelled from the spec: Settings::invalidateContentSize — clears the
content-size field to undefined, preserving margins and alignment. -/
def Settings.invalidateContentSize (s : Settings) (k : PageId) : Settings :=
  match Settings.getPageParams s k with
  | some p => Settings.setPageParams s k { p with contentSizeMM := none }
  | none => s

/-- Length units understood by the converter. -/
inductive LengthUnit where
  | pixels
  | millimetres
  | centimetres
  | inches
  deriving DecidableEq

/-- Modelled from the spec: the UnitsConverter collaborator constructed
from a page's dpi (UnitsConverter.cpp is outside src/). -/
structure UnitsConverter where
  dpiX : ℚ
  dpiY : ℚ

/-- Modelled from the spec: linear factor taking one unit along one axis
to millimetres, given that axis's resolution. -/
def UnitsConverter.factor (dpi : ℚ) : LengthUnit → ℚ
  | LengthUnit.pixels => if dpi = 0 then 0 else 25.4 / dpi
  | LengthUnit.millimetres => 1
  | LengthUnit.centimetres => 10
  | LengthUnit.inches => 25.4

/-- Modelled from the spec: UnitsConverter::convert — converts a
horizontal and a vertical measurement between two units, linearly, using
the per-axis resolution. -/
def UnitsConverter.convert (uc : UnitsConverter) (h v : ℚ) (f t : LengthUnit) : ℚ × ℚ :=
  (h * UnitsConverter.factor uc.dpiX f / UnitsConverter.factor uc.dpiX t,
   v * UnitsConverter.factor uc.dpiY f / UnitsConverter.factor uc.dpiY t)

/-- Modelled from the spec: the global default configuration supplied by
the default-configuration provider (DefaultParams.cpp is outside src/) —
default hard margins in a configured unit, default alignment, default
auto-margins flag. -/
structure DefaultParams where
  units : LengthUnit
  hardMargins : Margins
  alignment : Alignment
  autoMargins : Bool

/-- The four page-ordering strategies other than natural order, held by
the option list as opaque providers. -/
inductive OrderProvider where
  | byWidth
  | byHeight
  | byDeviation
  deriving DecidableEq

/-- A (display label, ordering-strategy-or-none) pair; none denotes the
natural order. -/
structure PageOrderOption where
  label : String
  provider : Option OrderProvider
  deriving DecidableEq

def naturalOrderLabel : String := "Natural order"
def orderByWidthLabel : String := "Order by increasing width"
def orderByHeightLabel : String := "Order by increasing height"
def orderByDeviationLabel : String := "Order by decreasing deviation"

/-- The page-layout stage: its store, the selected page-order index, and
the option list built in the constructor. -/
structure Filter where
  settings : Settings
  selectedPageOrder : Int
  pageOrderOptions : List PageOrderOption

/-- The option list the Filter constructor builds: natural order with a
null provider, then width, height and deviation orders. -/
def Filter.initialPageOrderOptions : List PageOrderOption :=
  [⟨naturalOrderLabel, none⟩,
   ⟨orderByWidthLabel, some OrderProvider.byWidth⟩,
   ⟨orderByHeightLabel, some OrderProvider.byHeight⟩,
   ⟨orderByDeviationLabel, some OrderProvider.byDeviation⟩]

/-- The stage state right after Filter::Filter. -/
def Filter.init : Filter :=
  ⟨Settings.empty, 0, Filter.initialPageOrderOptions⟩

/-- The C cast of a 32-bit int to unsigned. -/
def castUnsigned (n : Int) : Nat := (n % (2 ^ 32 : Int)).toNat

/-- Filter::selectPageOrder — asserts (unsigned)option is below the
option-list size and records the selection; none models an assertion
failure. -/
def Filter.selectPageOrder (f : Filter) (option : Int) : Option Filter :=
  if castUnsigned option < f.pageOrderOptions.length then
    some { f with selectedPageOrder := option }
  else none

/-- Filter::writePageSettings — writes one page element carrying the
numeric id and the record's serialized form, or nothing when the store
has no record for the page. -/
def Filter.writePageSettings (s : Settings) (page_id : PageId) (numeric_id : Int) : Option DomNode :=
  match Settings.getPageParams s page_id with
  | none => none
  | some params =>
      some (DomNode.element pageTagName [(idAttrName, Val.int numeric_id)]
        [Params.toXml paramsTagName params])

/-- Filter::saveSettings — one container element: the toggle attribute,
an optional guides container (omitted when the guide list is empty), and
one page element per page the writer enumerates that has a record. -/
def Filter.saveSettings (s : Settings) (pages : List (PageId × Int)) : DomNode :=
  DomNode.element pageLayoutTagName
    [(showMiddleRectAttrName,
      Val.str (if Settings.isShowingMiddleRectEnabled s then oneStr else zeroStr))]
    ((if s.guides.isEmpty then []
      else [DomNode.element guidesTagName []
              (s.guides.map (fun g => Guide.toXml guideTagName g))])
     ++ pages.filterMap (fun pn => Filter.writePageSettings s pn.1 pn.2))

/-- The guide-reading loop of Filter::loadSettings: children of the
guides container that are elements named guide, decoded in order. -/
def readGuides : Option DomNode → List Guide
  | none => []
  | some ge =>
      (domChildren ge).filterMap (fun n =>
        match n with
        | DomNode.other _ => none
        | DomNode.element t a c =>
            if t = guideTagName then some (Guide.fromXml (DomNode.element t a c)) else none)

/-- The page-entry step of the Filter::loadSettings loop: skip
non-elements and elements not named page; parse the id attribute,
resolve it through the reader, and require a params child — any failure
skips the entry. -/
def parsePageEntry (reader : Int → Option PageId) (node : DomNode) : Option (PageId × Params) :=
  match node with
  | DomNode.other _ => none
  | DomNode.element tag attrs children =>
      if tag = pageTagName then
        match valToInt (attrLookup attrs idAttrName) with
        | (_, false) => none
        | (i, true) =>
            match reader i with
            | none => none
            | some pid =>
                match toElement (namedItem children paramsTagName) with
                | none => none
                | some pel => some (pid, Params.fromXml pel)
      else none

/-- Filter::loadSettings — clears the store, locates the page-layout
child, reads the toggle attribute, reads the guides container, then
stores every successfully parsed page entry. -/
def Filter.loadSettings (s0 : Settings) (reader : Int → Option PageId)
    (filters_el : DomNode) : Settings :=
  let s1 := Settings.clear s0
  let filter_el := toElement (namedItem (domChildren filters_el) pageLayoutTagName)
  let s2 := Settings.enableShowingMiddleRect s1
    (decide (attrString filter_el showMiddleRectAttrName = oneStr))
  let guides_el := toElement (namedItemIn filter_el guidesTagName)
  let s3 := { s2 with guides := s2.guides ++ readGuides guides_el }
  let entries := (domChildrenIn filter_el).filterMap (parsePageEntry reader)
  entries.foldl (fun s e => Settings.setPageParams s e.1 e.2) s3

/-- The record Filter::loadDefaultSettings seeds: the default hard
margins converted to millimetres with the page's own resolution (left
and top in one converter call, right and bottom in another, both with
the same source and target units), undefined rectangles and size, and
the default alignment and auto-margins flag. -/
def defaultSeedRecord (dp : DefaultParams) (dpiX dpiY : ℚ) : Params :=
  let uc : UnitsConverter := ⟨dpiX, dpiY⟩
  let m := dp.hardMargins
  let lt := UnitsConverter.convert uc m.left m.top dp.units LengthUnit.millimetres
  let rb := UnitsConverter.convert uc m.right m.bottom dp.units LengthUnit.millimetres
  { hardMarginsMM := ⟨lt.1, lt.2, rb.1, rb.2⟩, pageRect := none, contentRect := none,
    contentSizeMM := none, alignment := dp.alignment, autoMargins := dp.autoMargins }

/-- Filter::loadDefaultSettings — returns the store unchanged when the
page already has a record, otherwise seeds the default record. -/
def Filter.loadDefaultSettings (dp : DefaultParams) (dpiX dpiY : ℚ)
    (s : Settings) (pid : PageId) : Settings :=
  if Settings.isParamsNull s pid = false then s
  else Settings.setPageParams s pid (defaultSeedRecord dp dpiX dpiY)

/-- The operations the surrounding pipeline can invoke on the stage
after construction, each carrying the collaborator data it consumes. -/
inductive FilterOp where
  | selectPageOrderOp (option : Int)
  | selectedOp (seq : List PageId)
  | performRelinkingOp (remap : PageId → Option PageId)
  | loadSettingsOp (reader : Int → Option PageId) (filters_el : DomNode)
  | saveSettingsOp (pages : List (PageId × Int))
  | setContentBoxOp (pid : PageId) (sz : SizeF)
  | invalidateContentBoxOp (pid : PageId)
  | loadDefaultSettingsOp (dp : DefaultParams) (dpiX dpiY : ℚ) (pid : PageId)

/-- One stage operation applied to the stage state; a failed
selectPageOrder assertion leaves the state unchanged. -/
def Filter.applyOp (f : Filter) : FilterOp → Filter
  | FilterOp.selectPageOrderOp o => (Filter.selectPageOrder f o).getD f
  | FilterOp.selectedOp seq =>
      { f with settings := Settings.removePagesMissingFrom f.settings seq }
  | FilterOp.performRelinkingOp remap =>
      { f with settings := Settings.performRelinking f.settings remap }
  | FilterOp.loadSettingsOp reader el =>
      { f with settings := Filter.loadSettings f.settings reader el }
  | FilterOp.saveSettingsOp _ => f
  | FilterOp.setContentBoxOp pid sz =>
      { f with settings := Settings.setContentSizeMM f.settings pid sz }
  | FilterOp.invalidateContentBoxOp pid =>
      { f with settings := Settings.invalidateContentSize f.settings pid }
  | FilterOp.loadDefaultSettingsOp dp dpiX dpiY pid =>
      { f with settings := Filter.loadDefaultSettings dp dpiX dpiY f.settings pid }

/-- A sequence of stage operations applied in order. -/
def Filter.applyOps (f : Filter) (ops : List FilterOp) : Filter :=
  ops.foldl Filter.applyOp f

theorem params_xml_round_trip (name : String) (p : Params) :
    Params.fromXml (Params.toXml name p) = p := by
  obtain ⟨m, pr, cr, cs, a, am⟩ := p
  cases pr <;> cases cr <;> cases cs <;> cases am <;> rfl

theorem guide_xml_round_trip (name : String) (g : Guide) :
    Guide.fromXml (Guide.toXml name g) = g := by
  rfl

theorem findRecord_insertRecord (rs : List (PageId × Params)) (k : PageId) (p : Params)
    (k' : PageId) :
    findRecord (insertRecord rs k p) k' = if k' = k then some p else findRecord rs k' := by
  induction rs with
  | nil => simp [insertRecord, findRecord]
  | cons e rest ih =>
      obtain ⟨a, q⟩ := e
      simp only [insertRecord]
      by_cases hka : k = a
      · subst hka
        by_cases hk : k' = k <;> simp [findRecord, hk]
      · rw [if_neg hka]
        by_cases hk'a : k' = a
        · subst hk'a
          have hne : ¬k' = k := fun h => hka h.symm
          simp [findRecord, hne]
        · simp [findRecord, hk'a, ih]

theorem findRecord_insertRecord_self (rs : List (PageId × Params)) (k : PageId) (p : Params) :
    findRecord (insertRecord rs k p) k = some p := by
  simp [findRecord_insertRecord]

/-- The value of the last entry carrying the given key, if any; this is
what a left fold of inserts leaves in the store. -/
def lastValue : List (PageId × Params) → PageId → Option Params
  | [], _ => none
  | e :: rest, k =>
      match lastValue rest k with
      | some q => some q
      | none => if k = e.1 then some e.2 else none

/-- A left fold of record inserts. -/
def applyEntries (rs : List (PageId × Params)) (es : List (PageId × Params)) :
    List (PageId × Params) :=
  es.foldl (fun acc e => insertRecord acc e.1 e.2) rs

theorem findRecord_applyEntries (es : List (PageId × Params)) (rs : List (PageId × Params))
    (k : PageId) :
    findRecord (applyEntries rs es) k =
      match lastValue es k with
      | some p => some p
      | none => findRecord rs k := by
  induction es generalizing rs with
  | nil => rfl
  | cons e rest ih =>
      show findRecord (applyEntries (insertRecord rs e.1 e.2) rest) k = _
      rw [ih]
      cases hrest : lastValue rest k with
      | some q => simp [lastValue, hrest]
      | none =>
          simp only [lastValue, hrest, findRecord_insertRecord]
          by_cases hk : k = e.1 <;> simp [hk]

theorem lastValue_eq_none_of (es : List (PageId × Params)) (k : PageId)
    (h : ∀ e ∈ es, e.1 ≠ k) : lastValue es k = none := by
  induction es with
  | nil => rfl
  | cons e rest ih =>
      have hrest := ih (fun x hx => h x (List.mem_cons_of_mem e hx))
      have he : k ≠ e.1 := fun hk => h e (List.mem_cons_self e rest) hk.symm
      simp [lastValue, hrest, he]

theorem lastValue_eq_some_of (es : List (PageId × Params)) (k : PageId) (p : Params)
    (hmem : ∃ e ∈ es, e.1 = k) (hval : ∀ e ∈ es, e.1 = k → e.2 = p) :
    lastValue es k = some p := by
  induction es with
  | nil => obtain ⟨e, he, _⟩ := hmem; exact absurd he (List.not_mem_nil e)
  | cons e rest ih =>
      by_cases hrest : ∃ x ∈ rest, x.1 = k
      · have := ih hrest (fun x hx hk => hval x (List.mem_cons_of_mem e hx) hk)
        simp [lastValue, this]
      · have hnone : lastValue rest k = none := by
          refine lastValue_eq_none_of rest k (fun x hx hk => hrest ⟨x, hx, hk⟩)
        obtain ⟨e', he', hk'⟩ := hmem
        rcases List.mem_cons.mp he' with rfl | hmem'
        · have hv := hval e' (List.mem_cons_self e' rest) hk'
          simp only [lastValue, hnone]
          rw [if_pos hk'.symm, hv]
        · exact absurd ⟨e', hmem', hk'⟩ hrest

theorem foldl_setPageParams_eq (es : List (PageId × Params)) (s : Settings) :
    es.foldl (fun t e => Settings.setPageParams t e.1 e.2) s =
      { s with records := applyEntries s.records es } := by
  induction es generalizing s with
  | nil => rfl
  | cons e rest ih =>
      show rest.foldl _ (Settings.setPageParams s e.1 e.2) = _
      rw [ih]
      rfl

theorem namedItem_eq_none (cs : List DomNode) (name : String)
    (h : ∀ c ∈ cs, c.nodeName ≠ name) : namedItem cs name = none := by
  induction cs with
  | nil => rfl
  | cons c rest ih =>
      have hc := h c (List.mem_cons_self c rest)
      simp only [namedItem, if_neg hc]
      exact ih (fun x hx => h x (List.mem_cons_of_mem c hx))

theorem namedItem_append (cs ds : List DomNode) (name : String) :
    namedItem (cs ++ ds) name =
      match namedItem cs name with
      | some x => some x
      | none => namedItem ds name := by
  induction cs with
  | nil => rfl
  | cons c rest ih =>
      by_cases hc : c.nodeName = name
      · simp [namedItem, hc]
      · simp [namedItem, hc, ih]

theorem readGuides_map_toXml (gs : List Guide) :
    readGuides (some (DomNode.element guidesTagName []
      (gs.map (fun g => Guide.toXml guideTagName g)))) = gs := by
  induction gs with
  | nil => rfl
  | cons g rest ih =>
      simp only [readGuides, domChildren, List.map_cons, List.filterMap_cons] at ih ⊢
      rw [show (Guide.toXml guideTagName g) = DomNode.element guideTagName
            [(orientationKey, Val.int g.orientation), (positionKey, Val.rat g.position)] [] from rfl]
      simp only [if_pos rfl]
      rw [ih]
      rfl

def filtersTagName : String := "filters"

/-- Saving a store and loading the produced element back through a
filters container: the persistence round trip. -/
def saveLoadRoundTrip (s0 : Settings) (reader : Int → Option PageId)
    (S : Settings) (pages : List (PageId × Int)) : Settings :=
  Filter.loadSettings s0 reader
    (DomNode.element filtersTagName [] [Filter.saveSettings S pages])

theorem loadSettings_eq (s0 : Settings) (reader : Int → Option PageId) (filters_el : DomNode) :
    Filter.loadSettings s0 reader filters_el =
      { records := applyEntries []
          ((domChildrenIn (toElement (namedItem (domChildren filters_el) pageLayoutTagName))).filterMap
            (parsePageEntry reader)),
        guides := readGuides (toElement (namedItemIn
          (toElement (namedItem (domChildren filters_el) pageLayoutTagName)) guidesTagName)),
        showMiddleRect := decide (attrString
          (toElement (namedItem (domChildren filters_el) pageLayoutTagName))
          showMiddleRectAttrName = oneStr) } :=
  foldl_setPageParams_eq _ _

/-- C6: loadSettings clears the store before reading anything, so the
resulting records, guides and toggle depend only on the loaded document
and never on the pre-existing in-memory state. -/
theorem loadSettings_clears_first (s0 s0' : Settings) (reader : Int → Option PageId)
    (filters_el : DomNode) :
    Filter.loadSettings s0 reader filters_el = Filter.loadSettings s0' reader filters_el :=
  rfl

/-- C10: when the filters element has no page-layout child, loadSettings
still succeeds and leaves the store fully cleared: no records, no
guides, toggle false. -/
theorem loadSettings_missing_filter_element (s0 : Settings) (reader : Int → Option PageId)
    (filters_el : DomNode)
    (h : ∀ c ∈ domChildren filters_el, c.nodeName ≠ pageLayoutTagName) :
    Filter.loadSettings s0 reader filters_el = Settings.empty := by
  have hn : namedItem (domChildren filters_el) pageLayoutTagName = none :=
    namedItem_eq_none _ _ h
  rw [loadSettings_eq, hn]
  rfl

theorem loadSettings_missing_filter_element_witness :
    Filter.loadSettings Settings.empty (fun _ => none)
      (DomNode.element filtersTagName [] [DomNode.other "#text"]) = Settings.empty :=
  loadSettings_missing_filter_element Settings.empty (fun _ => none)
    (DomNode.element filtersTagName [] [DomNode.other "#text"]) (by decide)

/-- The spec's reading of the toggle: true exactly when the container
element carries a showMiddleRect attribute whose string value is "1";
an absent attribute or any other value yields false. -/
def showMiddleRectSpec (filters_el : DomNode) : Bool :=
  match elemAttr (toElement (namedItem (domChildren filters_el) pageLayoutTagName))
      showMiddleRectAttrName with
  | some v => decide (Val.asString v = oneStr)
  | none => false

/-- C8: after loading, the middle-rect toggle is true iff the container
element's showMiddleRect attribute is exactly the string "1"; an absent
attribute or any other value yields false. -/
theorem showMiddleRect_iff_attr_one (s0 : Settings) (reader : Int → Option PageId)
    (filters_el : DomNode) :
    (Filter.loadSettings s0 reader filters_el).showMiddleRect =
      showMiddleRectSpec filters_el := by
  rw [loadSettings_eq]
  show decide (attrString _ showMiddleRectAttrName = oneStr) = _
  unfold showMiddleRectSpec attrString
  cases elemAttr (toElement (namedItem (domChildren filters_el) pageLayoutTagName))
      showMiddleRectAttrName with
  | none => simp [oneStr]
  | some v => rfl

theorem loadDefaultSettings_of_notnull (dp : DefaultParams) (dpiX dpiY : ℚ)
    (s : Settings) (pid : PageId) (h : Settings.isParamsNull s pid = false) :
    Filter.loadDefaultSettings dp dpiX dpiY s pid = s := by
  unfold Filter.loadDefaultSettings
  rw [if_pos h]

theorem loadDefaultSettings_of_null (dp : DefaultParams) (dpiX dpiY : ℚ)
    (s : Settings) (pid : PageId) (h : Settings.isParamsNull s pid = true) :
    Filter.loadDefaultSettings dp dpiX dpiY s pid =
      Settings.setPageParams s pid (defaultSeedRecord dp dpiX dpiY) := by
  unfold Filter.loadDefaultSettings
  rw [h]
  simp

theorem isParamsNull_setPageParams_self (s : Settings) (pid : PageId) (p : Params) :
    Settings.isParamsNull (Settings.setPageParams s pid p) pid = false := by
  simp [Settings.isParamsNull, Settings.getPageParams, Settings.setPageParams,
    findRecord_insertRecord_self]

/-- C3: loadDefaultSettings is idempotent — the second of two successive
calls for the same page performs no mutation, because either the page
already had a record or the first call seeded one. -/
theorem loadDefaultSettings_idempotent (dp : DefaultParams) (dpiX dpiY : ℚ)
    (s : Settings) (pid : PageId) :
    Filter.loadDefaultSettings dp dpiX dpiY
        (Filter.loadDefaultSettings dp dpiX dpiY s pid) pid =
      Filter.loadDefaultSettings dp dpiX dpiY s pid := by
  cases hx : Settings.isParamsNull s pid with
  | false =>
      rw [loadDefaultSettings_of_notnull dp dpiX dpiY s pid hx,
        loadDefaultSettings_of_notnull dp dpiX dpiY s pid hx]
  | true =>
      rw [loadDefaultSettings_of_null dp dpiX dpiY s pid hx]
      exact loadDefaultSettings_of_notnull dp dpiX dpiY _ pid
        (isParamsNull_setPageParams_self s pid _)

/-- The 300 dpi, half-inch-margins default configuration of the spec's
seeding scenario. -/
def dpHalfInch : DefaultParams :=
  { units := LengthUnit.inches, hardMargins := ⟨1 / 2, 1 / 2, 1 / 2, 1 / 2⟩,
    alignment := ⟨0, 0⟩, autoMargins := false }

/-- C4: for a page lacking a record, loadDefaultSettings stores a record
whose four hard margins are the default margins converted to millimetres
(left and top through one converter call, right and bottom through
another, same units and the page's own resolution), whose rectangles and
content size are undefined, and whose alignment and auto-margins flag
come from the default configuration; with 300 dpi and half-inch default
margins all four stored margins equal 12.7 mm. -/
theorem loadDefaultSettings_seeds_converted_margins (dp : DefaultParams) (dpiX dpiY : ℚ)
    (s : Settings) (pid : PageId) (h : Settings.isParamsNull s pid = true) :
    Settings.getPageParams (Filter.loadDefaultSettings dp dpiX dpiY s pid) pid =
      some { hardMarginsMM :=
               ⟨(UnitsConverter.convert ⟨dpiX, dpiY⟩ dp.hardMargins.left dp.hardMargins.top
                   dp.units LengthUnit.millimetres).1,
                (UnitsConverter.convert ⟨dpiX, dpiY⟩ dp.hardMargins.left dp.hardMargins.top
                   dp.units LengthUnit.millimetres).2,
                (UnitsConverter.convert ⟨dpiX, dpiY⟩ dp.hardMargins.right dp.hardMargins.bottom
                   dp.units LengthUnit.millimetres).1,
                (UnitsConverter.convert ⟨dpiX, dpiY⟩ dp.hardMargins.right dp.hardMargins.bottom
                   dp.units LengthUnit.millimetres).2⟩,
             pageRect := none, contentRect := none, contentSizeMM := none,
             alignment := dp.alignment, autoMargins := dp.autoMargins } ∧
    Settings.getPageParams (Filter.loadDefaultSettings dpHalfInch 300 300 Settings.empty 1) 1 =
      some { hardMarginsMM := ⟨12.7, 12.7, 12.7, 12.7⟩,
             pageRect := none, contentRect := none, contentSizeMM := none,
             alignment := dpHalfInch.alignment, autoMargins := dpHalfInch.autoMargins } := by
  constructor
  · rw [loadDefaultSettings_of_null dp dpiX dpiY s pid h]
    simp [Settings.getPageParams, Settings.setPageParams, findRecord_insertRecord_self,
      defaultSeedRecord]
  · rw [loadDefaultSettings_of_null dpHalfInch 300 300 Settings.empty 1 rfl]
    simp only [Settings.getPageParams, Settings.setPageParams, findRecord_insertRecord_self]
    norm_num [defaultSeedRecord, UnitsConverter.convert, UnitsConverter.factor, dpHalfInch]

theorem loadDefaultSettings_seeds_converted_margins_witness :
    Settings.isParamsNull Settings.empty 1 = true ∧
    Settings.getPageParams (Filter.loadDefaultSettings dpHalfInch 300 300 Settings.empty 1) 1 =
      some { hardMarginsMM := ⟨12.7, 12.7, 12.7, 12.7⟩,
             pageRect := none, contentRect := none, contentSizeMM := none,
             alignment := dpHalfInch.alignment, autoMargins := dpHalfInch.autoMargins } :=
  ⟨rfl, (loadDefaultSettings_seeds_converted_margins dpHalfInch 300 300
    Settings.empty 1 rfl).2⟩

/-- C9: for 0 <= option < 4 with the four-option list, selectPageOrder
passes its range assertion and afterwards the selected index is exactly
that option with no other field modified; the cast to unsigned makes
every negative (32-bit) option violate the assertion. -/
theorem selectPageOrder_range (f : Filter) (o : Int)
    (hlen : f.pageOrderOptions.length = 4) :
    (0 ≤ o → o < 4 →
      castUnsigned o < f.pageOrderOptions.length ∧
      Filter.selectPageOrder f o = some { f with selectedPageOrder := o }) ∧
    (o < 0 → -2147483648 ≤ o →
      ¬castUnsigned o < f.pageOrderOptions.length ∧
      Filter.selectPageOrder f o = none) := by
  constructor
  · intro h0 h4
    have hc : castUnsigned o < f.pageOrderOptions.length := by
      rw [hlen]; unfold castUnsigned; omega
    refine ⟨hc, ?_⟩
    unfold Filter.selectPageOrder
    rw [if_pos hc]
  · intro hneg hlow
    have hc : ¬castUnsigned o < f.pageOrderOptions.length := by
      rw [hlen]; unfold castUnsigned; omega
    refine ⟨hc, ?_⟩
    unfold Filter.selectPageOrder
    rw [if_neg hc]

theorem selectPageOrder_range_witness :
    (castUnsigned 2 < (Filter.init).pageOrderOptions.length ∧
     Filter.selectPageOrder Filter.init 2 = some { Filter.init with selectedPageOrder := 2 }) ∧
    (¬castUnsigned (-5) < (Filter.init).pageOrderOptions.length ∧
     Filter.selectPageOrder Filter.init (-5) = none) :=
  ⟨(selectPageOrder_range Filter.init 2 rfl).1 (by decide) (by decide),
   (selectPageOrder_range Filter.init (-5) rfl).2 (by decide) (by decide)⟩

theorem applyOp_pageOrderOptions (f : Filter) (op : FilterOp) :
    (Filter.applyOp f op).pageOrderOptions = f.pageOrderOptions := by
  cases op with
  | selectPageOrderOp o =>
      simp only [Filter.applyOp, Filter.selectPageOrder]
      split
      · rfl
      · rfl
  | selectedOp seq => rfl
  | performRelinkingOp remap => rfl
  | loadSettingsOp reader el => rfl
  | saveSettingsOp pages => rfl
  | setContentBoxOp pid sz => rfl
  | invalidateContentBoxOp pid => rfl
  | loadDefaultSettingsOp dp dpiX dpiY pid => rfl

/-- C7: the page-order option list is fixed at stage construction: after
every sequence of stage operations it is still exactly the four options
Natural (with a null provider), by increasing width, by increasing
height, by decreasing deviation, in that order. -/
theorem pageOrderOptions_fixed (ops : List FilterOp) :
    (Filter.applyOps Filter.init ops).pageOrderOptions =
      [⟨naturalOrderLabel, none⟩,
       ⟨orderByWidthLabel, some OrderProvider.byWidth⟩,
       ⟨orderByHeightLabel, some OrderProvider.byHeight⟩,
       ⟨orderByDeviationLabel, some OrderProvider.byDeviation⟩] := by
  have key : ∀ (g : Filter) (rest : List FilterOp),
      (Filter.applyOps g rest).pageOrderOptions = g.pageOrderOptions := by
    intro g rest
    induction rest generalizing g with
    | nil => rfl
    | cons op tail ih =>
        show (Filter.applyOps (Filter.applyOp g op) tail).pageOrderOptions = _
        rw [ih, applyOp_pageOrderOptions]
  rw [key]
  rfl

theorem writePageSettings_nodeName (S : Settings) (pid : PageId) (nid : Int) (el : DomNode)
    (h : Filter.writePageSettings S pid nid = some el) : el.nodeName = pageTagName := by
  unfold Filter.writePageSettings at h
  cases hp : Settings.getPageParams S pid with
  | none => rw [hp] at h; exact absurd h (by simp)
  | some p =>
      rw [hp] at h
      obtain rfl := Option.some.inj h
      rfl

theorem pagesPart_nodeName (S : Settings) (pages : List (PageId × Int)) :
    ∀ c ∈ pages.filterMap (fun pn => Filter.writePageSettings S pn.1 pn.2),
      c.nodeName = pageTagName := by
  intro c hc
  rw [List.mem_filterMap] at hc
  obtain ⟨pn, _, h⟩ := hc
  exact writePageSettings_nodeName S pn.1 pn.2 c h

/-- C5: saving an empty store yields a container with showMiddleRect "0"
and no children at all; in general the guides child is omitted whenever
the guide list is empty, and no page element is written for a page whose
record is absent from the store. -/
theorem saveSettings_empty_store (S : Settings) (pages : List (PageId × Int))
    (pid : PageId) (nid : Int) :
    (Filter.saveSettings Settings.empty pages =
      DomNode.element pageLayoutTagName [(showMiddleRectAttrName, Val.str zeroStr)] []) ∧
    (S.guides = [] →
      namedItem (domChildren (Filter.saveSettings S pages)) guidesTagName = none) ∧
    (Settings.getPageParams S pid = none → Filter.writePageSettings S pid nid = none) := by
  refine ⟨?_, ?_, ?_⟩
  · unfold Filter.saveSettings
    have hpages : pages.filterMap
        (fun pn => Filter.writePageSettings Settings.empty pn.1 pn.2) = [] := by
      refine List.filterMap_eq_nil_iff.mpr (fun pn _ => ?_)
      rfl
    rw [hpages]
    rfl
  · intro hg
    unfold Filter.saveSettings
    rw [hg]
    simp only [List.isEmpty_nil, if_pos rfl, domChildren, List.nil_append]
    exact namedItem_eq_none _ _ (fun c hc => by
      rw [pagesPart_nodeName S pages c hc]
      decide)
  · intro hp
    unfold Filter.writePageSettings
    rw [hp]

theorem saveSettings_empty_store_witness :
    (Filter.saveSettings Settings.empty [(1, 5)] =
      DomNode.element pageLayoutTagName [(showMiddleRectAttrName, Val.str zeroStr)] []) ∧
    (namedItem (domChildren (Filter.saveSettings Settings.empty [(1, 5)])) guidesTagName
      = none) ∧
    (Filter.writePageSettings Settings.empty 1 5 = none) :=
  ⟨(saveSettings_empty_store Settings.empty [(1, 5)] 1 5).1,
   (saveSettings_empty_store Settings.empty [(1, 5)] 1 5).2.1 rfl,
   (saveSettings_empty_store Settings.empty [(1, 5)] 1 5).2.2 rfl⟩

theorem namedItem_append_skip (pre post : List DomNode) (x : DomNode) (name : String)
    (hx : x.nodeName ≠ name) :
    namedItem (pre ++ x :: post) name = namedItem (pre ++ post) name := by
  rw [namedItem_append, namedItem_append]
  cases namedItem pre name with
  | some y => rfl
  | none => simp [namedItem, hx]

/-- C2: a page child whose id attribute does not parse as an integer, or
whose id the resolver maps to null, or which lacks a params child, is
skipped as a whole — no record is stored for it — and the remaining page
entries are processed exactly as if the bad entry were absent. -/
theorem load_skips_malformed_page_entry
    (s0 : Settings) (reader : Int → Option PageId)
    (flattrs plattrs : List (String × Val)) (pre post : List DomNode)
    (battrs : List (String × Val)) (bchildren : List DomNode)
    (hbad : (valToInt (attrLookup battrs idAttrName)).2 = false ∨
            reader (valToInt (attrLookup battrs idAttrName)).1 = none ∨
            toElement (namedItem bchildren paramsTagName) = none) :
    parsePageEntry reader (DomNode.element pageTagName battrs bchildren) = none ∧
    Filter.loadSettings s0 reader
        (DomNode.element filtersTagName flattrs
          [DomNode.element pageLayoutTagName plattrs
            (pre ++ DomNode.element pageTagName battrs bchildren :: post)]) =
      Filter.loadSettings s0 reader
        (DomNode.element filtersTagName flattrs
          [DomNode.element pageLayoutTagName plattrs (pre ++ post)]) := by
  have hskip : parsePageEntry reader (DomNode.element pageTagName battrs bchildren) = none := by
    cases hval : valToInt (attrLookup battrs idAttrName) with
    | mk i b =>
        cases b with
        | false => simp [parsePageEntry, hval]
        | true =>
            rcases hbad with h1 | h2 | h3
            · rw [hval] at h1; exact absurd h1 (by simp)
            · rw [hval] at h2
              simp [parsePageEntry, hval, h2]
            · cases hr : reader i with
              | none => simp [parsePageEntry, hval, hr]
              | some pid => simp [parsePageEntry, hval, hr, h3]
  refine ⟨hskip, ?_⟩
  rw [loadSettings_eq, loadSettings_eq]
  have hple : ∀ ch : List DomNode,
      toElement (namedItem (domChildren (DomNode.element filtersTagName flattrs
        [DomNode.element pageLayoutTagName plattrs ch])) pageLayoutTagName) =
      some (DomNode.element pageLayoutTagName plattrs ch) := by
    intro ch
    simp [domChildren, namedItem, DomNode.nodeName, toElement]
  rw [hple, hple]
  congr 1
  · simp only [domChildrenIn, domChildren, List.filterMap_append, List.filterMap_cons, hskip]
  · have hpn : (DomNode.element pageTagName battrs bchildren).nodeName ≠ guidesTagName := by
      simp only [DomNode.nodeName]
      decide
    simp only [namedItemIn, domChildren]
    rw [namedItem_append_skip pre post (DomNode.element pageTagName battrs bchildren)
      guidesTagName hpn]

theorem load_skips_malformed_page_entry_witness :
    parsePageEntry (fun _ => some 1)
      (DomNode.element pageTagName [(idAttrName, Val.str "abc")] []) = none ∧
    Filter.loadSettings Settings.empty (fun _ => some 1)
        (DomNode.element filtersTagName []
          [DomNode.element pageLayoutTagName []
            ([] ++ DomNode.element pageTagName [(idAttrName, Val.str "abc")] [] :: [])]) =
      Filter.loadSettings Settings.empty (fun _ => some 1)
        (DomNode.element filtersTagName []
          [DomNode.element pageLayoutTagName [] ([] ++ [])]) :=
  load_skips_malformed_page_entry Settings.empty (fun _ => some 1) [] [] [] []
    [(idAttrName, Val.str "abc")] [] (Or.inl (by decide))

/-- The entry the load loop recovers from a saved page: present exactly
when the store had a record for the page and the reader resolves the
page's numeric id. -/
def entryOf (S : Settings) (reader : Int → Option PageId) (kn : PageId × Int) :
    Option (PageId × Params) :=
  match Settings.getPageParams S kn.1 with
  | none => none
  | some p =>
      match reader kn.2 with
      | some _ => some (kn.1, p)
      | none => none

theorem entryOf_eq_some (S : Settings) (reader : Int → Option PageId)
    (kn : PageId × Int) (e : PageId × Params) (h : entryOf S reader kn = some e) :
    e.1 = kn.1 ∧ Settings.getPageParams S kn.1 = some e.2 ∧ ∃ x, reader kn.2 = some x := by
  unfold entryOf at h
  cases hp : Settings.getPageParams S kn.1 with
  | none => rw [hp] at h; exact absurd h (by simp)
  | some p =>
      rw [hp] at h
      cases hr : reader kn.2 with
      | none => rw [hr] at h; exact absurd h (by simp)
      | some x =>
          rw [hr] at h
          obtain rfl := Option.some.inj h
          exact ⟨rfl, rfl, ⟨x, rfl⟩⟩

theorem write_then_parse (S : Settings) (reader : Int → Option PageId) (k : PageId) (n : Int)
    (hkn : reader n = some k ∨ reader n = none) :
    (Filter.writePageSettings S k n).bind (parsePageEntry reader) = entryOf S reader (k, n) := by
  cases hp : Settings.getPageParams S k with
  | none => simp [Filter.writePageSettings, entryOf, hp]
  | some p =>
      have hw : Filter.writePageSettings S k n =
          some (DomNode.element pageTagName [(idAttrName, Val.int n)]
            [Params.toXml paramsTagName p]) := by
        unfold Filter.writePageSettings
        rw [hp]
      rw [hw]
      show (match reader n with
            | none => none
            | some pid =>
                match toElement (namedItem [Params.toXml paramsTagName p] paramsTagName) with
                | none => none
                | some pel => some (pid, Params.fromXml pel)) = entryOf S reader (k, n)
      rcases hkn with hr | hr
      · rw [hr]
        show some (k, Params.fromXml (Params.toXml paramsTagName p)) = entryOf S reader (k, n)
        rw [params_xml_round_trip]
        simp [entryOf, hp, hr]
      · rw [hr]
        show (none : Option (PageId × Params)) = entryOf S reader (k, n)
        simp [entryOf, hp, hr]

theorem savedEntries_eq (S : Settings) (pages : List (PageId × Int))
    (reader : Int → Option PageId)
    (hcons : ∀ k n, (k, n) ∈ pages → reader n = some k ∨ reader n = none) :
    (pages.filterMap (fun pn => Filter.writePageSettings S pn.1 pn.2)).filterMap
        (parsePageEntry reader) =
      pages.filterMap (entryOf S reader) := by
  rw [List.filterMap_filterMap]
  exact List.filterMap_congr (fun pn hpn =>
    write_then_parse S reader pn.1 pn.2 (hcons pn.1 pn.2 hpn))

/-- C1: the persistence round trip — loading what saveSettings produced
restores the toggle and the guide list exactly, keeps every page record
whose numeric id the reader resolves back to its page key, drops
exactly the entries whose id does not resolve, and is exact when every
id resolves. -/
theorem roundTrip_load_save (S s0 : Settings) (pages : List (PageId × Int))
    (reader : Int → Option PageId)
    (hcons : ∀ k n, (k, n) ∈ pages → reader n = some k ∨ reader n = none) :
    (saveLoadRoundTrip s0 reader S pages).showMiddleRect = S.showMiddleRect ∧
    (saveLoadRoundTrip s0 reader S pages).guides = S.guides ∧
    (∀ k : PageId,
      (Settings.getPageParams S k = none →
        Settings.getPageParams (saveLoadRoundTrip s0 reader S pages) k = none) ∧
      ((∃ n : Int, (k, n) ∈ pages ∧ reader n = some k) →
        Settings.getPageParams (saveLoadRoundTrip s0 reader S pages) k =
          Settings.getPageParams S k) ∧
      ((∀ n : Int, (k, n) ∈ pages → reader n ≠ some k) →
        Settings.getPageParams (saveLoadRoundTrip s0 reader S pages) k = none)) ∧
    ((∀ k n, (k, n) ∈ pages → reader n = some k) →
     (∀ k : PageId, Settings.getPageParams S k ≠ none → ∃ n : Int, (k, n) ∈ pages) →
      ∀ k : PageId,
        Settings.getPageParams (saveLoadRoundTrip s0 reader S pages) k =
          Settings.getPageParams S k) := by
  have h1 : toElement (namedItem (domChildren (DomNode.element filtersTagName []
      [Filter.saveSettings S pages])) pageLayoutTagName) =
      some (Filter.saveSettings S pages) := rfl
  have hRT : saveLoadRoundTrip s0 reader S pages =
      { records := applyEntries []
          ((domChildren (Filter.saveSettings S pages)).filterMap (parsePageEntry reader)),
        guides := readGuides (toElement (namedItem (domChildren (Filter.saveSettings S pages))
          guidesTagName)),
        showMiddleRect := decide (attrString (some (Filter.saveSettings S pages))
          showMiddleRectAttrName = oneStr) } := by
    unfold saveLoadRoundTrip
    rw [loadSettings_eq, h1]
    rfl
  have htoggle : (saveLoadRoundTrip s0 reader S pages).showMiddleRect = S.showMiddleRect := by
    rw [hRT]
    show decide (attrString (some (Filter.saveSettings S pages)) showMiddleRectAttrName
      = oneStr) = S.showMiddleRect
    cases hb : S.showMiddleRect with
    | false =>
        simp [Filter.saveSettings, attrString, elemAttr, attrLookup, Val.asString,
          Settings.isShowingMiddleRectEnabled, hb, oneStr, zeroStr]
    | true =>
        simp [Filter.saveSettings, attrString, elemAttr, attrLookup, Val.asString,
          Settings.isShowingMiddleRectEnabled, hb, oneStr, zeroStr]
  have hguides : (saveLoadRoundTrip s0 reader S pages).guides = S.guides := by
    rw [hRT]
    show readGuides (toElement (namedItem (domChildren (Filter.saveSettings S pages))
      guidesTagName)) = S.guides
    cases hg : S.guides with
    | nil =>
        have hch : domChildren (Filter.saveSettings S pages) =
            pages.filterMap (fun pn => Filter.writePageSettings S pn.1 pn.2) := by
          show (if S.guides.isEmpty then [] else [DomNode.element guidesTagName []
            (S.guides.map (fun g => Guide.toXml guideTagName g))]) ++ _ = _
          rw [hg]
          rfl
        rw [hch, namedItem_eq_none _ _ (fun c hc => by
          rw [pagesPart_nodeName S pages c hc]
          decide)]
        rfl
    | cons g gs =>
        have hch : domChildren (Filter.saveSettings S pages) =
            DomNode.element guidesTagName []
                ((g :: gs).map (fun x => Guide.toXml guideTagName x)) ::
              pages.filterMap (fun pn => Filter.writePageSettings S pn.1 pn.2) := by
          show (if S.guides.isEmpty then [] else [DomNode.element guidesTagName []
            (S.guides.map (fun x => Guide.toXml guideTagName x))]) ++ _ = _
          rw [hg]
          rfl
        rw [hch]
        show readGuides (toElement (namedItem (DomNode.element guidesTagName []
          ((g :: gs).map (fun x => Guide.toXml guideTagName x)) ::
            pages.filterMap (fun pn => Filter.writePageSettings S pn.1 pn.2))
          guidesTagName)) = g :: gs
        rw [show namedItem (DomNode.element guidesTagName []
              ((g :: gs).map (fun x => Guide.toXml guideTagName x)) ::
                pages.filterMap (fun pn => Filter.writePageSettings S pn.1 pn.2))
              guidesTagName = some (DomNode.element guidesTagName []
              ((g :: gs).map (fun x => Guide.toXml guideTagName x))) from by
          simp [namedItem, DomNode.nodeName]]
        exact readGuides_map_toXml (g :: gs)
  have hguidesPartNil : ((if S.guides.isEmpty then [] else [DomNode.element guidesTagName []
      (S.guides.map (fun g => Guide.toXml guideTagName g))]) : List DomNode).filterMap
        (parsePageEntry reader) = [] := by
    by_cases hgi : S.guides.isEmpty
    · rw [if_pos hgi]
      rfl
    · rw [if_neg hgi]
      have hnone : parsePageEntry reader (DomNode.element guidesTagName []
          (S.guides.map (fun g => Guide.toXml guideTagName g))) = none := by
        simp [parsePageEntry, guidesTagName, pageTagName]
      simp [List.filterMap_cons, hnone]
  have hentries : (domChildren (Filter.saveSettings S pages)).filterMap
      (parsePageEntry reader) = pages.filterMap (entryOf S reader) := by
    show ((if S.guides.isEmpty then [] else [DomNode.element guidesTagName []
      (S.guides.map (fun g => Guide.toXml guideTagName g))]) ++
        pages.filterMap (fun pn => Filter.writePageSettings S pn.1 pn.2)).filterMap
          (parsePageEntry reader) = _
    rw [List.filterMap_append, hguidesPartNil, List.nil_append]
    exact savedEntries_eq S pages reader hcons
  have hrec : ∀ k : PageId, Settings.getPageParams (saveLoadRoundTrip s0 reader S pages) k =
      lastValue (pages.filterMap (entryOf S reader)) k := by
    intro k
    rw [hRT]
    show findRecord (applyEntries [] ((domChildren (Filter.saveSettings S pages)).filterMap
      (parsePageEntry reader))) k = _
    rw [hentries, findRecord_applyEntries]
    cases lastValue (pages.filterMap (entryOf S reader)) k with
    | some p => rfl
    | none => rfl
  have b1 : ∀ k : PageId, Settings.getPageParams S k = none →
      Settings.getPageParams (saveLoadRoundTrip s0 reader S pages) k = none := by
    intro k hp
    rw [hrec k]
    refine lastValue_eq_none_of _ _ (fun e he hek => ?_)
    obtain ⟨kn, hkn, hsome⟩ := List.mem_filterMap.mp he
    obtain ⟨h1e, h2e, _⟩ := entryOf_eq_some S reader kn e hsome
    rw [h1e.symm.trans hek] at h2e
    rw [hp] at h2e
    exact absurd h2e (by simp)
  have b2 : ∀ k : PageId, (∃ n : Int, (k, n) ∈ pages ∧ reader n = some k) →
      Settings.getPageParams (saveLoadRoundTrip s0 reader S pages) k =
        Settings.getPageParams S k := by
    intro k hex
    obtain ⟨n, hn_mem, hn_res⟩ := hex
    cases hp : Settings.getPageParams S k with
    | none => exact b1 k hp
    | some p =>
        rw [hrec k]
        have hmem : ((k, p) : PageId × Params) ∈ pages.filterMap (entryOf S reader) :=
          List.mem_filterMap.mpr ⟨(k, n), hn_mem, by simp [entryOf, hp, hn_res]⟩
        have hval : ∀ e ∈ pages.filterMap (entryOf S reader), e.1 = k → e.2 = p := by
          intro e he hek
          obtain ⟨kn, hkn, hsome⟩ := List.mem_filterMap.mp he
          obtain ⟨h1e, h2e, _⟩ := entryOf_eq_some S reader kn e hsome
          rw [h1e.symm.trans hek] at h2e
          rw [hp] at h2e
          exact (Option.some.inj h2e).symm
        rw [lastValue_eq_some_of _ _ p ⟨(k, p), hmem, rfl⟩ hval]
  have b3 : ∀ k : PageId, (∀ n : Int, (k, n) ∈ pages → reader n ≠ some k) →
      Settings.getPageParams (saveLoadRoundTrip s0 reader S pages) k = none := by
    intro k hall
    rw [hrec k]
    refine lastValue_eq_none_of _ _ (fun e he hek => ?_)
    obtain ⟨kn, hkn, hsome⟩ := List.mem_filterMap.mp he
    obtain ⟨h1e, _, x, hx⟩ := entryOf_eq_some S reader kn e hsome
    have hk1 : kn.1 = k := h1e.symm.trans hek
    have hkn' : ((k, kn.2) : PageId × Int) ∈ pages := by
      rw [show ((k, kn.2) : PageId × Int) = kn from by
        rw [← hk1]]
      exact hkn
    rcases hcons k kn.2 hkn' with hck | hck
    · exact hall kn.2 hkn' hck
    · rw [hck] at hx
      exact absurd hx (by simp)
  refine ⟨htoggle, hguides, fun k => ⟨b1 k, b2 k, b3 k⟩, fun hall hcover k => ?_⟩
  cases hp : Settings.getPageParams S k with
  | none => exact b1 k hp
  | some p =>
      have hex : ∃ n : Int, (k, n) ∈ pages := hcover k (by rw [hp]; simp)
      obtain ⟨n, hn⟩ := hex
      have h2 := b2 k ⟨n, hn, hall k n hn⟩
      rw [hp] at h2
      exact h2

/-- A concrete record exercising every field shape. -/
def demoParams : Params :=
  { hardMarginsMM := ⟨1, 2, 3, 4⟩, pageRect := none,
    contentRect := some ⟨0, 0, 5, 5⟩, contentSizeMM := some ⟨5, 5⟩,
    alignment := ⟨1, 2⟩, autoMargins := true }

/-- A concrete store exercising every persisted component: one record,
one guide, toggle on. -/
def demoStore : Settings :=
  { records := [(1, demoParams)], guides := [⟨0, 3⟩], showMiddleRect := true }

/-- A writer enumeration giving page 1 the numeric id 7. -/
def demoPages : List (PageId × Int) := [(1, 7)]

/-- A reader resolving numeric id 7 back to page 1. -/
def demoReader : Int → Option PageId := fun n => if n = 7 then some 1 else none

theorem roundTrip_load_save_witness :
    (saveLoadRoundTrip Settings.empty demoReader demoStore demoPages).showMiddleRect =
      demoStore.showMiddleRect ∧
    (saveLoadRoundTrip Settings.empty demoReader demoStore demoPages).guides =
      demoStore.guides ∧
    Settings.getPageParams (saveLoadRoundTrip Settings.empty demoReader demoStore demoPages) 1 =
      Settings.getPageParams demoStore 1 := by
  have h := roundTrip_load_save demoStore Settings.empty demoPages demoReader (by
    intro k n hmem
    rw [show demoPages = [(1, 7)] from rfl, List.mem_singleton, Prod.mk.injEq] at hmem
    obtain ⟨rfl, rfl⟩ := hmem
    exact Or.inl rfl)
  exact ⟨h.1, h.2.1, (h.2.2.1 1).2.1 ⟨7, List.mem_singleton.mpr rfl, rfl⟩⟩

end page_layout
